import Mathlib

/-!
Shallow embedding of the a8-manpower front-end data hooks.

Each definition below is translated from one TypeScript function of the
repository:

* `handleClearMatches` — `useShortlists` in the shortlists hook file
  (delete on the `cv_match` relation, scoped by `user_id` when a user id is
  known, otherwise filtered by `id is not null`).
* `jobDescriptionsQuery` / `jobDescriptionsQueryFn` — the guarded
  react-query fetch inside `useJobDescriptions`.
* `handleDelete`, `handleUpdate` — the delete/update operations of
  `useJobDescriptions`.
* `mountShortlists` — the mount effect of `useShortlists` clearing the job
  description text.
* `searchCandidates` — the candidate search of `SearchTab` over
  `cv_metadata`, including the SQL `ILIKE` pattern semantics of the
  backing store.
* `saveProfile` — the employer-profile save logic of `profileFormUtils`,
  including the backing store's unique constraint on `user_id` that the
  code comments reference.

Remote calls return `\x7b data, error \x7d`; the possible transport outcomes are
reified as the `Transport` type, and the database tables as explicit lists
of rows, so every operation is a pure function of its inputs.
-/

/-- Outcome of a single remote call against the relational data service:
it completes with a null error, completes with a non-null `error` value, or
throws an exception. -/
inductive Transport where
  | ok : Transport
  | err : Transport
  | exn : Transport
deriving DecidableEq

/-- A toast notification: title, description, and whether the
`destructive` variant was used. -/
structure ToastMsg where
  title : String
  description : String
  destructive : Bool
deriving DecidableEq

/-- A row of the `cv_match` relation.  The `id` column is modelled as
nullable so that the source's `not('id', 'is', null)` filter is
expressible; `user_id` is nullable as in the relation. -/
structure CvMatchRow where
  id : Option String
  user_id : Option String
deriving DecidableEq

/-- The delete filter built by `handleClearMatches`: with a known user it
is `eq('user_id', userId)`, otherwise `not('id', 'is', null)`. -/
def clearFilter (userId : Option String) (r : CvMatchRow) : Bool :=
  match userId with
  | some uid => r.user_id == some uid
  | none => r.id.isSome

/-- Toast shown by `handleClearMatches` on success. -/
def clearSuccessToast : ToastMsg :=
  { title := "Matches cleared",
    description := "All your matches have been cleared from the table and database.",
    destructive := false }

/-- Toast shown by `handleClearMatches` on failure. -/
def clearErrorToast : ToastMsg :=
  { title := "Error",
    description := "Failed to clear matches. Please try again.",
    destructive := true }

/-- Result of one `handleClearMatches` invocation: the resulting
`cv_match` table, whether the in-memory matching state was cleared
(`handleClearMatchesCore`), the toasts raised and the console errors
logged. -/
structure ClearOutcome where
  db : List CvMatchRow
  uiCleared : Bool
  toasts : List ToastMsg
  logs : List String
deriving DecidableEq

/-- `handleClearMatches` from `useShortlists`: builds a delete query on
`cv_match` filtered by `clearFilter`, awaits it, and on success clears the
UI matching state and raises a success toast; a non-null error is thrown
and, like any thrown exception, caught by the surrounding `try`, logged,
and surfaced as a destructive toast. -/
def handleClearMatches (userId : Option String) (t : Transport)
    (db : List CvMatchRow) : ClearOutcome :=
  match t with
  | Transport.ok =>
      { db := db.filter (fun r => !(clearFilter userId r)),
        uiCleared := true,
        toasts := [clearSuccessToast],
        logs := [] }
  | _ =>
      { db := db,
        uiCleared := false,
        toasts := [clearErrorToast],
        logs := ["Error clearing matches:"] }

/-- The pieces of `useShortlists` state touched by its mount effect. -/
structure ShortlistViewState where
  jobDescription : String
  selectedJobId : Option String
  isMatching : Bool
deriving DecidableEq

/-- The mount effect of `useShortlists`: `setJobDescription("")`. -/
def mountShortlists (s : ShortlistViewState) : ShortlistViewState :=
  { s with jobDescription := "" }

/-- A row of the `job_descriptions` relation, in the shape of the
`JobDescription` type used by `useJobDescriptions`.  `created_at` is a
numeric timestamp. -/
structure JobDescriptionRow where
  id : String
  user_id : String
  job_title : String
  company_name : String
  location : String
  original_text : String
  job_requirements : String
  benefits : String
  employer_profile_id : Option String
  agent_id : Option String
  created_at : Nat
deriving DecidableEq

/-- Newest-first ordering on job description rows, as produced by
`order('created_at', \x7b ascending: false \x7d)`. -/
def newestFirst (a b : JobDescriptionRow) : Prop :=
  b.created_at ≤ a.created_at

instance : DecidableRel newestFirst :=
  fun a b => Nat.decLe b.created_at a.created_at

instance : IsTotal JobDescriptionRow newestFirst :=
  ⟨fun a b => Nat.le_total b.created_at a.created_at⟩

instance : IsTrans JobDescriptionRow newestFirst :=
  ⟨fun _ _ _ hab hbc => Nat.le_trans hbc hab⟩

/-- The `queryFn` of `useJobDescriptions`: returns `[]` immediately when
`userId` is null, otherwise selects the rows with `user_id` equal to the
current user, ordered newest first.  The second component counts the
backing-store calls the function issues. -/
def jobDescriptionsQueryFn (userId : Option String)
    (db : List JobDescriptionRow) : List JobDescriptionRow × Nat :=
  match userId with
  | none => ([], 0)
  | some uid =>
      (List.insertionSort newestFirst
        (db.filter (fun r => r.user_id == uid)), 1)

/-- The `useQuery` wrapper of `useJobDescriptions`: the query is guarded
by `enabled: !!userId`, so with a null user the query function is never
run and `data` keeps its `[]` default. -/
def jobDescriptionsQuery (userId : Option String)
    (db : List JobDescriptionRow) : List JobDescriptionRow × Nat :=
  if userId.isSome then jobDescriptionsQueryFn userId db else ([], 0)

/-- Toast shown by `handleDelete` on success. -/
def deleteSuccessToast : ToastMsg :=
  { title := "Success",
    description := "Job description deleted successfully",
    destructive := false }

/-- Toast shown by `handleDelete` on failure. -/
def deleteErrorToast : ToastMsg :=
  { title := "Error",
    description := "Failed to delete job description",
    destructive := true }

/-- Toast shown by `handleUpdate` on success. -/
def updateSuccessToast : ToastMsg :=
  { title := "Success",
    description := "Job description updated successfully",
    destructive := false }

/-- Toast shown by `handleUpdate` on failure. -/
def updateErrorToast : ToastMsg :=
  { title := "Error",
    description := "Failed to update job description",
    destructive := true }

/-- Result of one `handleDelete` invocation.  `result` is the value the
async function resolves with: `none` models the bare `return;` paths
(JavaScript `undefined`), `some b` a boolean return.  `cacheValid`
models whether the cached `jobDescriptions` query is still valid
(invalidation sets it to `false`). -/
structure DeleteOutcome where
  result : Option Bool
  db : List JobDescriptionRow
  cacheValid : Bool
  toasts : List ToastMsg
  logs : List String
deriving DecidableEq

/-- Result of one `handleUpdate` invocation; every return path of the
source yields a boolean. -/
structure UpdateOutcome where
  result : Bool
  db : List JobDescriptionRow
  cacheValid : Bool
  toasts : List ToastMsg
  logs : List String
deriving DecidableEq

/-- `handleDelete` from `useJobDescriptions`: asks for confirmation and
returns (undefined) if declined; otherwise deletes the rows with the
given id.  A non-null error is logged, surfaced as a destructive toast,
and followed by a bare `return;`; a thrown exception is caught, logged,
surfaced, and `false` is returned; on success a toast is raised, the
cached list invalidated, and `true` returned. -/
def handleDelete (confirmed : Bool) (jobId : String) (t : Transport)
    (db : List JobDescriptionRow) (cacheValid : Bool) : DeleteOutcome :=
  if confirmed then
    match t with
    | Transport.ok =>
        { result := some true,
          db := db.filter (fun r => !(r.id == jobId)),
          cacheValid := false,
          toasts := [deleteSuccessToast],
          logs := [] }
    | Transport.err =>
        { result := none,
          db := db,
          cacheValid := cacheValid,
          toasts := [deleteErrorToast],
          logs := ["Delete error:"] }
    | Transport.exn =>
        { result := some false,
          db := db,
          cacheValid := cacheValid,
          toasts := [deleteErrorToast],
          logs := ["Delete error:"] }
  else
    { result := none,
      db := db,
      cacheValid := cacheValid,
      toasts := [],
      logs := [] }

/-- The `updateData` object of `handleUpdate`: exactly the six
whitelisted fields taken from the argument, applied to a row. -/
def applyUpdateData (jd r : JobDescriptionRow) : JobDescriptionRow :=
  { r with
    job_title := jd.job_title,
    company_name := jd.company_name,
    location := jd.location,
    original_text := jd.original_text,
    job_requirements := jd.job_requirements,
    benefits := jd.benefits }

/-- `handleUpdate` from `useJobDescriptions`: updates the rows whose id
equals the argument's id with the six whitelisted fields.  A non-null
error or a thrown exception is logged, surfaced as a destructive toast,
and `false` returned; on success a toast is raised, the cached list
invalidated, and `true` returned. -/
def handleUpdate (jd : JobDescriptionRow) (t : Transport)
    (db : List JobDescriptionRow) (cacheValid : Bool) : UpdateOutcome :=
  match t with
  | Transport.ok =>
      { result := true,
        db := db.map (fun r => if r.id == jd.id then applyUpdateData jd r else r),
        cacheValid := false,
        toasts := [updateSuccessToast],
        logs := [] }
  | Transport.err =>
      { result := false,
        db := db,
        cacheValid := cacheValid,
        toasts := [updateErrorToast],
        logs := ["Update error:"] }
  | Transport.exn =>
      { result := false,
        db := db,
        cacheValid := cacheValid,
        toasts := [updateErrorToast],
        logs := ["Update error:"] }

/-- Does a pattern match the empty string?  Only when it consists solely
of `%` wildcards. -/
def acceptsEmpty : List Char → Bool
  | [] => true
  | '%' :: ps => acceptsEmpty ps
  | _ => false

/-- One step of SQL `ILIKE` matching against a non-empty string whose
first character is `c`; `f` matches the rest of the string against a
pattern.  `%` matches any sequence, `_` any single character, and plain
characters compare case-insensitively. -/
def likeStep (f : List Char → Bool) (c : Char) : List Char → Bool
  | [] => false
  | '%' :: ps => likeStep f c ps || f ('%' :: ps)
  | '_' :: ps => f ps
  | q :: ps => (q.toLower == c.toLower) && f ps

/-- SQL `ILIKE` matching of a pattern (second argument) against a string
(first argument), by recursion on the string. -/
def likeRun : List Char → List Char → Bool
  | [], p => acceptsEmpty p
  | c :: cs, p => likeStep (likeRun cs) c p

/-- `value ILIKE pattern`: the backing store's case-insensitive pattern
match used by the `ilike` filter of the candidate search. -/
def sqlIlike (pattern v : String) : Bool :=
  likeRun v.toList pattern.toList

/-- A row of the `cv_metadata` relation, in the shape selected by the
candidate search (`id, name, experience, location, skills`). -/
structure CvMetadataRow where
  id : String
  name : Option String
  experience : Option Int
  location : Option String
  skills : Option String
deriving DecidableEq

deriving instance DecidableEq for Except

/-- Result of one `searchCandidates` invocation: the value the async
function resolves with (`Except.error` models a thrown error) and the
number of backing-store calls issued. -/
structure SearchOutcome where
  result : Except String (List CvMetadataRow)
  queriesIssued : Nat
deriving DecidableEq

/-- `searchCandidates` from `SearchTab`: an empty search term throws
before any remote call; otherwise the `cv_metadata` rows whose `name`
matches `ilike '%term%'` are fetched with `limit(10)`.  Rows with a null
`name` never match an `ILIKE` filter. -/
def searchCandidates (searchTerm : String) (db : List CvMetadataRow) :
    SearchOutcome :=
  if searchTerm = "" then
    { result := Except.error "Please enter a search query",
      queriesIssued := 0 }
  else
    { result := Except.ok ((db.filter (fun r =>
        match r.name with
        | some n => sqlIlike ("%" ++ searchTerm ++ "%") n
        | none => false)).take 10),
      queriesIssued := 1 }

/-- Character-list version of `String.startsWith`. -/
def startsWithChars : List Char → List Char → Bool
  | [], _ => true
  | _ :: _, [] => false
  | a :: as, b :: bs => (a == b) && startsWithChars as bs

/-- Character-list substring containment. -/
def containsChars (needle : List Char) : List Char → Bool
  | [] => needle.isEmpty
  | c :: cs => startsWithChars needle (c :: cs) || containsChars needle cs

/-- Stated from the claim's wording, for comparison with the source's
`ilike` filter: the needle occurs in the haystack as a case-insensitive
substring. -/
def containsCaseInsensitive (hay needle : String) : Bool :=
  containsChars (needle.toList.map Char.toLower) (hay.toList.map Char.toLower)

/-- Sample `cv_metadata` row with a one-letter name. -/
def cvRowX : CvMetadataRow :=
  { id := "c1", name := some "x", experience := none, location := none,
    skills := none }

/-- Sample `cv_metadata` row named Alice. -/
def cvRowAlice : CvMetadataRow :=
  { id := "c2", name := some "Alice", experience := some 3,
    location := some "SG", skills := none }

/-- Sample job description row used to evaluate theorems at concrete
inputs. -/
def jdRowA : JobDescriptionRow :=
  { id := "JD-A", user_id := "u1", job_title := "Engineer",
    company_name := "Acme", location := "SG", original_text := "text A",
    job_requirements := "reqs A", benefits := "bens A",
    employer_profile_id := none, agent_id := none, created_at := 2 }

/-- Second sample job description row, owned by the same user. -/
def jdRowB : JobDescriptionRow :=
  { id := "JD-B", user_id := "u1", job_title := "Analyst",
    company_name := "Acme", location := "SG", original_text := "text B",
    job_requirements := "reqs B", benefits := "bens B",
    employer_profile_id := none, agent_id := none, created_at := 1 }

/-- Sample argument to `handleUpdate`, editing `jdRowA`. -/
def jdInput : JobDescriptionRow :=
  { id := "JD-A", user_id := "u1", job_title := "Staff Engineer",
    company_name := "Acme Corp", location := "KL",
    original_text := "new text", job_requirements := "new reqs",
    benefits := "new bens", employer_profile_id := none, agent_id := none,
    created_at := 2 }

/-- The optional alternate contact of an employer profile. -/
structure AlternateContact where
  name : Option String
  designation : Option String
  email : Option String
  phone : Option String
deriving DecidableEq

/-- The schema-validated form values passed to `saveProfile`. -/
structure ProfileFormData where
  company_name : String
  registration_number : String
  country : String
  state : String
  industry : String
  sub_industry : String
  sub_sub_industry : String
  contact_person : String
  designation : String
  email : String
  phone : String
  alternate_contact : Option AlternateContact
deriving DecidableEq

/-- A row of the `employer_profiles` relation. -/
structure EmployerProfileRow where
  id : String
  user_id : String
  company_name : String
  registration_number : String
  country : String
  state : String
  industry : String
  sub_industry : String
  sub_sub_industry : String
  contact_person : String
  designation : String
  email : String
  phone : String
  alternate_contact : Option AlternateContact
  is_verified : Bool
  is_approved : Bool
  profile_completion : Nat
  created_at : String
  updated_at : String
deriving DecidableEq

/-- The `profileData` object of `saveProfile` together with the
`updated_at` timestamp, applied to an existing row by an `update`
keyed on id. -/
def applyProfileUpdate (uid : String) (v : ProfileFormData) (ts : String)
    (r : EmployerProfileRow) : EmployerProfileRow :=
  { r with
    user_id := uid,
    company_name := v.company_name,
    registration_number := v.registration_number,
    country := v.country,
    state := v.state,
    industry := v.industry,
    sub_industry := v.sub_industry,
    sub_sub_industry := v.sub_sub_industry,
    contact_person := v.contact_person,
    designation := v.designation,
    email := v.email,
    phone := v.phone,
    alternate_contact := v.alternate_contact,
    is_verified := false,
    is_approved := false,
    profile_completion := 100,
    updated_at := ts }

/-- The row inserted by `saveProfile` when no profile exists yet: the
`profileData` object plus `created_at` and `updated_at`, under a fresh
id generated by the backing store. -/
def newProfileRow (newId uid : String) (v : ProfileFormData) (ts : String) :
    EmployerProfileRow :=
  { id := newId, user_id := uid,
    company_name := v.company_name,
    registration_number := v.registration_number,
    country := v.country,
    state := v.state,
    industry := v.industry,
    sub_industry := v.sub_industry,
    sub_sub_industry := v.sub_sub_industry,
    contact_person := v.contact_person,
    designation := v.designation,
    email := v.email,
    phone := v.phone,
    alternate_contact := v.alternate_contact,
    is_verified := false,
    is_approved := false,
    profile_completion := 100,
    created_at := ts,
    updated_at := ts }

/-- The `maybeSingle` lookup of `saveProfile` with its error ignored (the
source destructures only `data`): `some` when exactly one row has the
given `user_id`, `none` when no row — or several rows, in which case the
call reports an error that the destructuring drops. -/
def maybeSingleData (uid : String) (db : List EmployerProfileRow) :
    Option EmployerProfileRow :=
  match db.filter (fun r => r.user_id == uid) with
  | [r] => some r
  | _ => none

/-- The final `single()` fetch of `saveProfile`: exactly one row for the
user, otherwise the call errors. -/
def singleByUser (uid : String) (db : List EmployerProfileRow) :
    Option EmployerProfileRow :=
  match db.filter (fun r => r.user_id == uid) with
  | [r] => some r
  | _ => none

/-- An `update` on `employer_profiles` keyed by id. -/
def updateProfileById (pid uid : String) (v : ProfileFormData) (ts : String)
    (db : List EmployerProfileRow) : List EmployerProfileRow :=
  db.map (fun r => if r.id == pid then applyProfileUpdate uid v ts r else r)

/-- Result of one `saveProfile` invocation: the resulting
`employer_profiles` table, the value resolved with (`saved` on success,
`isError` when the catch path returned an error), and whether the insert
branch ran. -/
structure SaveOutcome where
  db : List EmployerProfileRow
  saved : Option EmployerProfileRow
  isError : Bool
  inserted : Bool
deriving DecidableEq

/-- The tail of `saveProfile` after a successful mutation: re-fetch the
user's single row; a fetch error is thrown into the catch and reported,
with the mutation already applied. -/
def finishSave (uid : String) (db2 : List EmployerProfileRow)
    (ins : Bool) : SaveOutcome :=
  match singleByUser uid db2 with
  | some row => { db := db2, saved := some row, isError := false, inserted := ins }
  | none => { db := db2, saved := none, isError := true, inserted := ins }

/-- The `profile?.id`-absent branch of `saveProfile`: look up the user's
existing row ignoring lookup errors; update it in place when found,
otherwise insert a new row — an insert violating the backing store's
unique constraint on `user_id` reports an error that the catch path
returns with the table unchanged. -/
def saveProfileNoId (uid : String) (v : ProfileFormData) (ts newId : String)
    (db : List EmployerProfileRow) : SaveOutcome :=
  match maybeSingleData uid db with
  | some existing =>
      finishSave uid (updateProfileById existing.id uid v ts db) false
  | none =>
      if db.any (fun r => r.user_id == uid) then
        { db := db, saved := none, isError := true, inserted := false }
      else
        finishSave uid (db ++ [newProfileRow newId uid v ts]) true

/-- `saveProfile` from `profileFormUtils`: requires an authenticated
user; with a supplied `profile.id` it updates that row in place, and
otherwise defers to `saveProfileNoId`.  A failing transport on the
mutation is thrown into the catch and returned as an error with the
table unchanged. -/
def saveProfile (v : ProfileFormData) (profileId : Option String)
    (user : Option String) (t : Transport) (ts newId : String)
    (db : List EmployerProfileRow) : SaveOutcome :=
  match user with
  | none => { db := db, saved := none, isError := true, inserted := false }
  | some uid =>
      match t with
      | Transport.ok =>
          match profileId with
          | some pid =>
              finishSave uid (updateProfileById pid uid v ts db) false
          | none => saveProfileNoId uid v ts newId db
      | _ => { db := db, saved := none, isError := true, inserted := false }

/-- At most one `employer_profiles` row per `user_id`: the unique
constraint the source's comments reference. -/
def uniqueUsers (db : List EmployerProfileRow) : Prop :=
  List.Pairwise (fun a b => a.user_id ≠ b.user_id) db

/-- Primary-key uniqueness of `employer_profiles` ids. -/
def uniqueIds (db : List EmployerProfileRow) : Prop :=
  List.Pairwise (fun a b => a.id ≠ b.id) db

/-- Sample form values for evaluating `saveProfile` concretely. -/
def profileValues : ProfileFormData :=
  { company_name := "Acme", registration_number := "R1",
    country := "SG", state := "Central", industry := "Tech",
    sub_industry := "Software", sub_sub_industry := "Web",
    contact_person := "Pat", designation := "HR", email := "hr@acme.test",
    phone := "0123456789", alternate_contact := none }

/-- Sample existing employer profile row for user `u1`. -/
def epRow : EmployerProfileRow :=
  { id := "p1", user_id := "u1", company_name := "Acme",
    registration_number := "R1", country := "SG", state := "Central",
    industry := "Tech", sub_industry := "Software",
    sub_sub_industry := "Web", contact_person := "Pat",
    designation := "HR", email := "hr@acme.test", phone := "0123456789",
    alternate_contact := none, is_verified := false, is_approved := false,
    profile_completion := 100, created_at := "t0", updated_at := "t0" }

theorem filter_not_filter_self {α : Type} (p : α → Bool) (l : List α) :
    (l.filter (fun a => !(p a))).filter p = [] := by
  induction l with
  | nil => rfl
  | cons a l ih =>
      by_cases h : p a = true
      · simp [List.filter, h, ih]
      · simp [List.filter, h, ih]

theorem filter_not_idem {α : Type} (p : α → Bool) (l : List α) :
    (l.filter (fun a => !(p a))).filter (fun a => !(p a)) =
      l.filter (fun a => !(p a)) := by
  rw [List.filter_filter]
  simp

theorem finishSave_db (uid : String) (db2 : List EmployerProfileRow)
    (ins : Bool) : (finishSave uid db2 ins).db = db2 := by
  unfold finishSave
  cases singleByUser uid db2 <;> rfl

theorem finishSave_inserted (uid : String) (db2 : List EmployerProfileRow)
    (ins : Bool) : (finishSave uid db2 ins).inserted = ins := by
  unfold finishSave
  cases singleByUser uid db2 <;> rfl

theorem uniqueUsers_filter_len (uid : String) :
    ∀ db : List EmployerProfileRow, uniqueUsers db →
      (db.filter (fun r => r.user_id == uid)).length ≤ 1 := by
  intro db
  induction db with
  | nil => intro _; simp
  | cons a l ih =>
      intro h
      have hp := List.pairwise_cons.mp h
      by_cases ha : a.user_id = uid
      · have hnil : l.filter (fun r => r.user_id == uid) = [] := by
          rw [List.filter_eq_nil_iff]
          intro b hb
          simp only [beq_iff_eq]
          intro hbe
          exact hp.1 b hb (ha.trans hbe.symm)
        simp [List.filter_cons, ha, hnil]
      · have hskip : (a :: l).filter (fun r => r.user_id == uid) =
            l.filter (fun r => r.user_id == uid) := by
          simp [List.filter_cons, ha]
        rw [hskip]
        exact ih hp.2

theorem maybeSingleData_mem (uid : String) (db : List EmployerProfileRow)
    (e : EmployerProfileRow) (h : maybeSingleData uid db = some e) :
    e ∈ db ∧ e.user_id = uid := by
  cases hf : db.filter (fun r => r.user_id == uid) with
  | nil =>
      have hval : maybeSingleData uid db = none := by
        unfold maybeSingleData
        rw [hf]
      rw [hval] at h
      exact absurd h (by simp)
  | cons r rest =>
      cases rest with
      | nil =>
          have hval : maybeSingleData uid db = some r := by
            unfold maybeSingleData
            rw [hf]
          rw [hval] at h
          have hre : r = e := by simpa using h
          subst hre
          have hmem : r ∈ db.filter (fun x => x.user_id == uid) := by
            rw [hf]
            exact List.mem_singleton.mpr rfl
          have hsplit := List.mem_filter.mp hmem
          exact ⟨hsplit.1, by simpa using hsplit.2⟩
      | cons r2 rest2 =>
          have hval : maybeSingleData uid db = none := by
            unfold maybeSingleData
            rw [hf]
          rw [hval] at h
          exact absurd h (by simp)

theorem maybeSingleData_none_filter (uid : String)
    (db : List EmployerProfileRow) (h1 : uniqueUsers db)
    (h : maybeSingleData uid db = none) :
    db.filter (fun r => r.user_id == uid) = [] := by
  have hlen := uniqueUsers_filter_len uid db h1
  cases hf : db.filter (fun r => r.user_id == uid) with
  | nil => rfl
  | cons r rest =>
      cases rest with
      | nil =>
          have hval : maybeSingleData uid db = some r := by
            unfold maybeSingleData
            rw [hf]
          rw [hval] at h
          exact absurd h (by simp)
      | cons r2 rest2 =>
          rw [hf] at hlen
          simp at hlen

theorem uniqueIds_eq_of_id :
    ∀ db : List EmployerProfileRow, uniqueIds db →
      ∀ r ∈ db, ∀ e ∈ db, r.id = e.id → r = e := by
  intro db
  induction db with
  | nil =>
      intro _ r hr
      exact absurd hr (List.not_mem_nil r)
  | cons a l ih =>
      intro h r hr e he hid
      have hp := List.pairwise_cons.mp h
      rcases List.mem_cons.mp hr with hra | hrl
      · subst hra
        rcases List.mem_cons.mp he with hea | hel
        · subst hea
          rfl
        · exact absurd hid (hp.1 e hel)
      · rcases List.mem_cons.mp he with hea | hel
        · subst hea
          exact absurd hid.symm (hp.1 r hrl)
        · exact ih hp.2 r hrl e hel hid

theorem uniqueUsers_updateProfileById (pid uid : String)
    (v : ProfileFormData) (ts : String) (db : List EmployerProfileRow)
    (hown : ∀ r ∈ db, r.id = pid → r.user_id = uid)
    (h1 : uniqueUsers db) :
    uniqueUsers (updateProfileById pid uid v ts db) := by
  unfold uniqueUsers updateProfileById
  rw [List.pairwise_map]
  refine List.Pairwise.imp_of_mem ?_ h1
  intro a b ha hb hne
  have hfa : (if a.id == pid then applyProfileUpdate uid v ts a
      else a).user_id = a.user_id := by
    by_cases hc : a.id = pid
    · have huser := hown a ha hc
      simp [hc, applyProfileUpdate, huser]
    · simp [hc]
  have hfb : (if b.id == pid then applyProfileUpdate uid v ts b
      else b).user_id = b.user_id := by
    by_cases hc : b.id = pid
    · have huser := hown b hb hc
      simp [hc, applyProfileUpdate, huser]
    · simp [hc]
  show (if a.id == pid then applyProfileUpdate uid v ts a else a).user_id ≠
    (if b.id == pid then applyProfileUpdate uid v ts b else b).user_id
  rw [hfa, hfb]
  exact hne

/-- C1.  The source behavior of `handleClearMatches` when `userId` is
null: the delete runs with only an `id is not null` filter, so a row
belonging to another user ("alice") is deleted from `cv_match` and a
success toast is raised — the operation is not refused and no error is
surfaced, contradicting the refusal contract. -/
theorem clearMatches_nullUser_deletes_other_users :
    (handleClearMatches none Transport.ok
        [{ id := some "m1", user_id := some "alice" }]).db = []
    ∧ (handleClearMatches none Transport.ok
        [{ id := some "m1", user_id := some "alice" }]).toasts =
      [clearSuccessToast] := by
  constructor <;> rfl

/-- C4.  Clearing matches twice with the same non-null user id: the
user's rows of `cv_match` are gone after the first call and still gone
after the second, the second call leaves the table exactly as the first
left it, and the second call completes with the success toast (no
error). -/
theorem clearMatches_idempotent (uid : String) (db : List CvMatchRow) :
    ((handleClearMatches (some uid) Transport.ok db).db.filter
        (fun r => r.user_id == some uid)) = []
    ∧ ((handleClearMatches (some uid) Transport.ok
          ((handleClearMatches (some uid) Transport.ok db).db)).db.filter
        (fun r => r.user_id == some uid)) = []
    ∧ (handleClearMatches (some uid) Transport.ok
          ((handleClearMatches (some uid) Transport.ok db).db)).db =
        (handleClearMatches (some uid) Transport.ok db).db
    ∧ (handleClearMatches (some uid) Transport.ok
          ((handleClearMatches (some uid) Transport.ok db).db)).toasts =
        [clearSuccessToast] := by
  refine ⟨?_, ?_, ?_, rfl⟩
  · exact filter_not_filter_self _ db
  · simp only [handleClearMatches, filter_not_idem]
    exact filter_not_filter_self _ db
  · simp only [handleClearMatches, filter_not_idem]

/-- C8.  The mount effect of `useShortlists` resets the held job
description text to the empty string, whatever it was before. -/
theorem useShortlists_mount_clears_jobDescription (s : ShortlistViewState) :
    (mountShortlists s).jobDescription = "" := rfl

/-- C2.  With a null user id the job description query is disabled: it
returns the empty list and issues zero backing-store calls. -/
theorem jobDescriptions_list_null_user (db : List JobDescriptionRow) :
    jobDescriptionsQuery none db = ([], 0) := rfl

/-- C5.  With a non-null user id the job description query returns only
rows owned by that user, is a permutation of exactly the rows of the
table owned by that user, is sorted newest first by `created_at`, and
issues one backing-store call. -/
theorem jobDescriptions_list_owner_sorted (uid : String)
    (db : List JobDescriptionRow) :
    ((jobDescriptionsQuery (some uid) db).1.all
        (fun r => r.user_id == uid)) = true
    ∧ (jobDescriptionsQuery (some uid) db).1.Perm
        (db.filter (fun r => r.user_id == uid))
    ∧ List.Sorted newestFirst (jobDescriptionsQuery (some uid) db).1
    ∧ (jobDescriptionsQuery (some uid) db).2 = 1 := by
  have hq : jobDescriptionsQuery (some uid) db =
      (List.insertionSort newestFirst
        (db.filter (fun r => r.user_id == uid)), 1) := rfl
  rw [hq]
  refine ⟨?_, List.perm_insertionSort _ _, List.sorted_insertionSort _ _, rfl⟩
  rw [List.all_eq_true]
  intro r hr
  have hmem : r ∈ db.filter (fun x => x.user_id == uid) :=
    (List.perm_insertionSort newestFirst _).mem_iff.mp hr
  exact (List.mem_filter.mp hmem).2

/-- C3 counterexample.  A confirmed delete whose remote call completes
with a non-null error takes the `return;` path: the error is logged and
surfaced as a destructive toast, but the operation resolves with no
value (JavaScript `undefined`), not with a boolean. -/
theorem jobDescriptions_delete_error_no_boolean :
    (handleDelete true "JD-A" Transport.err [jdRowA] true).toasts =
      [deleteErrorToast]
    ∧ (handleDelete true "JD-A" Transport.err [jdRowA] true).logs ≠ []
    ∧ ∀ b : Bool,
        (handleDelete true "JD-A" Transport.err [jdRowA] true).result ≠
          some b := by
  refine ⟨rfl, by simp [handleDelete], ?_⟩
  intro b
  cases b <;> simp [handleDelete]

/-- C3 amended.  On any failing transport outcome, `handleUpdate`
returns `false`, leaves the table unchanged, logs the error and raises
the destructive toast; `handleDelete` (confirmed) logs and raises the
destructive toast and returns `false` when an exception was thrown but
resolves with no value when the call merely reported a non-null error.
Neither operation lets the failure escape: both always resolve with one
of these values. -/
theorem jobDescriptions_failure_semantics (jd : JobDescriptionRow)
    (jobId : String) (db : List JobDescriptionRow) (cacheValid : Bool)
    (t : Transport) (h : t ≠ Transport.ok) :
    (handleUpdate jd t db cacheValid).result = false
    ∧ (handleUpdate jd t db cacheValid).db = db
    ∧ (handleUpdate jd t db cacheValid).toasts = [updateErrorToast]
    ∧ (handleUpdate jd t db cacheValid).logs ≠ []
    ∧ (handleDelete true jobId t db cacheValid).result =
        (if t = Transport.exn then some false else none)
    ∧ (handleDelete true jobId t db cacheValid).db = db
    ∧ (handleDelete true jobId t db cacheValid).toasts = [deleteErrorToast]
    ∧ (handleDelete true jobId t db cacheValid).logs ≠ []
    ∧ updateErrorToast.destructive = true
    ∧ deleteErrorToast.destructive = true := by
  cases t with
  | ok => exact absurd rfl h
  | err =>
      exact ⟨rfl, rfl, rfl, by simp [handleUpdate], rfl, rfl, rfl,
        by simp [handleDelete], rfl, rfl⟩
  | exn =>
      exact ⟨rfl, rfl, rfl, by simp [handleUpdate], rfl, rfl, rfl,
        by simp [handleDelete], rfl, rfl⟩

/-- Witness for the amended C3 theorem at a concrete failing input. -/
theorem jobDescriptions_failure_semantics_witness :
    (handleUpdate jdInput Transport.err [jdRowA] true).result = false
    ∧ (handleUpdate jdInput Transport.err [jdRowA] true).db = [jdRowA]
    ∧ (handleUpdate jdInput Transport.err [jdRowA] true).toasts =
        [updateErrorToast]
    ∧ (handleUpdate jdInput Transport.err [jdRowA] true).logs ≠ []
    ∧ (handleDelete true "JD-A" Transport.err [jdRowA] true).result =
        (if Transport.err = Transport.exn then some false else none)
    ∧ (handleDelete true "JD-A" Transport.err [jdRowA] true).db = [jdRowA]
    ∧ (handleDelete true "JD-A" Transport.err [jdRowA] true).toasts =
        [deleteErrorToast]
    ∧ (handleDelete true "JD-A" Transport.err [jdRowA] true).logs ≠ []
    ∧ updateErrorToast.destructive = true
    ∧ deleteErrorToast.destructive = true :=
  jobDescriptions_failure_semantics jdInput "JD-A" [jdRowA] true
    Transport.err (by decide)

/-- C6.  A successful update returns `true`, invalidates the cached
list, preserves the table's length, and rewrites each row positionally:
the row with the argument's id receives exactly the six whitelisted
fields while its identity, ownership, profile and agent links and
creation time are untouched; every other row is fully unchanged. -/
theorem jobDescriptions_update_frame (jd : JobDescriptionRow)
    (db : List JobDescriptionRow) (cacheValid : Bool) (i : Nat)
    (h : i < db.length) :
    (handleUpdate jd Transport.ok db cacheValid).result = true
    ∧ (handleUpdate jd Transport.ok db cacheValid).cacheValid = false
    ∧ (handleUpdate jd Transport.ok db cacheValid).db.length = db.length
    ∧ ∃ r', (handleUpdate jd Transport.ok db cacheValid).db[i]? = some r'
        ∧ r'.id = (db.get ⟨i, h⟩).id
        ∧ r'.user_id = (db.get ⟨i, h⟩).user_id
        ∧ r'.employer_profile_id = (db.get ⟨i, h⟩).employer_profile_id
        ∧ r'.agent_id = (db.get ⟨i, h⟩).agent_id
        ∧ r'.created_at = (db.get ⟨i, h⟩).created_at
        ∧ ((db.get ⟨i, h⟩).id = jd.id →
            r'.job_title = jd.job_title
            ∧ r'.company_name = jd.company_name
            ∧ r'.location = jd.location
            ∧ r'.original_text = jd.original_text
            ∧ r'.job_requirements = jd.job_requirements
            ∧ r'.benefits = jd.benefits)
        ∧ ((db.get ⟨i, h⟩).id ≠ jd.id → r' = db.get ⟨i, h⟩) := by
  have hdb : (handleUpdate jd Transport.ok db cacheValid).db =
      db.map (fun r => if r.id == jd.id then applyUpdateData jd r else r) :=
    rfl
  refine ⟨rfl, rfl, by rw [hdb]; exact List.length_map _ _, ?_⟩
  have hsome : (handleUpdate jd Transport.ok db cacheValid).db[i]? =
      some (if (db.get ⟨i, h⟩).id == jd.id then
        applyUpdateData jd (db.get ⟨i, h⟩) else db.get ⟨i, h⟩) := by
    rw [hdb, List.getElem?_map, List.getElem?_eq_getElem h]
    rfl
  by_cases hc : (db.get ⟨i, h⟩).id = jd.id
  · refine ⟨applyUpdateData jd (db.get ⟨i, h⟩), ?_, rfl, rfl, rfl, rfl, rfl,
      fun _ => ⟨rfl, rfl, rfl, rfl, rfl, rfl⟩, fun hne => absurd hc hne⟩
    rw [hsome]
    have hb : ((db.get ⟨i, h⟩).id == jd.id) = true := beq_iff_eq.mpr hc
    rw [hb]
    rfl
  · refine ⟨db.get ⟨i, h⟩, ?_, rfl, rfl, rfl, rfl, rfl,
      fun heq => absurd heq hc, fun _ => rfl⟩
    rw [hsome]
    have hb : ((db.get ⟨i, h⟩).id == jd.id) = false := by
      simpa using hc
    rw [hb]
    rfl

/-- Witness for the C6 frame theorem: the concrete two-row table with
`jdInput` targeting the first row. -/
theorem jobDescriptions_update_frame_witness :
    (handleUpdate jdInput Transport.ok [jdRowA, jdRowB] true).result = true
    ∧ (handleUpdate jdInput Transport.ok [jdRowA, jdRowB] true).cacheValid =
        false
    ∧ (handleUpdate jdInput Transport.ok [jdRowA, jdRowB] true).db.length =
        ([jdRowA, jdRowB] : List JobDescriptionRow).length
    ∧ ∃ r', (handleUpdate jdInput Transport.ok [jdRowA, jdRowB] true).db[0]? =
          some r'
        ∧ r'.id = (([jdRowA, jdRowB] : List JobDescriptionRow).get
            ⟨0, by decide⟩).id
        ∧ r'.user_id = (([jdRowA, jdRowB] : List JobDescriptionRow).get
            ⟨0, by decide⟩).user_id
        ∧ r'.employer_profile_id =
            (([jdRowA, jdRowB] : List JobDescriptionRow).get
              ⟨0, by decide⟩).employer_profile_id
        ∧ r'.agent_id = (([jdRowA, jdRowB] : List JobDescriptionRow).get
            ⟨0, by decide⟩).agent_id
        ∧ r'.created_at = (([jdRowA, jdRowB] : List JobDescriptionRow).get
            ⟨0, by decide⟩).created_at
        ∧ ((([jdRowA, jdRowB] : List JobDescriptionRow).get
              ⟨0, by decide⟩).id = jdInput.id →
            r'.job_title = jdInput.job_title
            ∧ r'.company_name = jdInput.company_name
            ∧ r'.location = jdInput.location
            ∧ r'.original_text = jdInput.original_text
            ∧ r'.job_requirements = jdInput.job_requirements
            ∧ r'.benefits = jdInput.benefits)
        ∧ ((([jdRowA, jdRowB] : List JobDescriptionRow).get
              ⟨0, by decide⟩).id ≠ jdInput.id →
            r' = ([jdRowA, jdRowB] : List JobDescriptionRow).get
              ⟨0, by decide⟩) :=
  jobDescriptions_update_frame jdInput [jdRowA, jdRowB] true 0 (by decide)

/-- C7 counterexample.  A `remove` invocation whose confirmation prompt
is declined leaves the table untouched but resolves with no value
(JavaScript `undefined`), not with a success/failure boolean. -/
theorem jobDescriptions_remove_unconfirmed_no_boolean :
    (handleDelete false "JD-A" Transport.ok [jdRowA] true).db = [jdRowA]
    ∧ ∀ b : Bool,
        (handleDelete false "JD-A" Transport.ok [jdRowA] true).result ≠
          some b := by
  refine ⟨rfl, ?_⟩
  intro b
  cases b <;> simp [handleDelete]

/-- C7 amended.  Without confirmation, `remove` performs no delete,
leaves table, cache, toasts and logs untouched, and resolves with no
value; with confirmation and a successful transport it deletes exactly
the rows with the given id, invalidates the cache, and returns `true`
(the deleted id is absent afterwards); with confirmation it returns
`false` on a thrown exception and no value on a store-reported error,
leaving the table unchanged in both failure cases. -/
theorem jobDescriptions_remove_behavior (jobId : String)
    (db : List JobDescriptionRow) (cacheValid : Bool) (t : Transport) :
    handleDelete false jobId t db cacheValid =
      { result := none, db := db, cacheValid := cacheValid, toasts := [],
        logs := [] }
    ∧ (handleDelete true jobId Transport.ok db cacheValid).result = some true
    ∧ (handleDelete true jobId Transport.ok db cacheValid).cacheValid = false
    ∧ (∀ r, r ∈ (handleDelete true jobId Transport.ok db cacheValid).db ↔
        (r ∈ db ∧ r.id ≠ jobId))
    ∧ (handleDelete true jobId Transport.exn db cacheValid).result =
        some false
    ∧ (handleDelete true jobId Transport.exn db cacheValid).db = db
    ∧ (handleDelete true jobId Transport.err db cacheValid).result = none
    ∧ (handleDelete true jobId Transport.err db cacheValid).db = db := by
  refine ⟨rfl, rfl, rfl, ?_, rfl, rfl, rfl, rfl⟩
  intro r
  constructor
  · intro hr
    have := List.mem_filter.mp hr
    refine ⟨this.1, ?_⟩
    simpa using this.2
  · intro hr
    refine List.mem_filter.mpr ⟨hr.1, ?_⟩
    simpa using hr.2

/-- Witness for the amended C7 theorem at a concrete input. -/
theorem jobDescriptions_remove_behavior_witness :
    handleDelete false "JD-A" Transport.ok [jdRowA, jdRowB] true =
      { result := none, db := [jdRowA, jdRowB], cacheValid := true,
        toasts := [], logs := [] }
    ∧ (handleDelete true "JD-A" Transport.ok [jdRowA, jdRowB] true).result =
        some true
    ∧ (handleDelete true "JD-A" Transport.ok [jdRowA, jdRowB]
        true).cacheValid = false
    ∧ (∀ r, r ∈ (handleDelete true "JD-A" Transport.ok [jdRowA, jdRowB]
          true).db ↔ (r ∈ ([jdRowA, jdRowB] : List JobDescriptionRow)
          ∧ r.id ≠ "JD-A"))
    ∧ (handleDelete true "JD-A" Transport.exn [jdRowA, jdRowB] true).result =
        some false
    ∧ (handleDelete true "JD-A" Transport.exn [jdRowA, jdRowB] true).db =
        [jdRowA, jdRowB]
    ∧ (handleDelete true "JD-A" Transport.err [jdRowA, jdRowB] true).result =
        none
    ∧ (handleDelete true "JD-A" Transport.err [jdRowA, jdRowB] true).db =
        [jdRowA, jdRowB] :=
  jobDescriptions_remove_behavior "JD-A" [jdRowA, jdRowB] true Transport.ok

/-- C9 counterexample.  The search term is interpolated raw into the
`ILIKE` pattern, so its `%` and `_` characters act as wildcards: the
non-empty term `"%"` returns the row named `"x"`, whose name does not
contain `"%"` as a case-insensitive substring. -/
theorem searchCandidates_wildcard_counterexample :
    ("%" : String) ≠ ""
    ∧ (searchCandidates "%" [cvRowX]).result = Except.ok [cvRowX]
    ∧ containsCaseInsensitive "x" "%" = false := by
  refine ⟨by decide, by decide, by decide⟩

/-- C9 amended.  An empty search term fails before issuing any
backing-store call; a non-empty term issues exactly one call and returns
at most 10 rows, each with a non-null name matching the `ILIKE` pattern
built by wrapping the raw term in `%` wildcards (for terms without `%`
or `_` this is case-insensitive substring matching). -/
theorem searchCandidates_behavior (term : String) (db : List CvMetadataRow) :
    (term = "" →
      (searchCandidates term db).queriesIssued = 0
      ∧ (searchCandidates term db).result =
          Except.error "Please enter a search query")
    ∧ (term ≠ "" →
      (searchCandidates term db).queriesIssued = 1
      ∧ ∃ l, (searchCandidates term db).result = Except.ok l
          ∧ l.length ≤ 10
          ∧ ∀ r ∈ l, ∃ n, r.name = some n
              ∧ sqlIlike ("%" ++ term ++ "%") n = true) := by
  constructor
  · intro h
    subst h
    exact ⟨rfl, rfl⟩
  · intro h
    constructor
    · simp [searchCandidates, h]
    · refine ⟨(db.filter (fun r =>
        match r.name with
        | some n => sqlIlike ("%" ++ term ++ "%") n
        | none => false)).take 10, ?_, List.length_take_le _ _, ?_⟩
      · simp [searchCandidates, h]
      · intro r hr
        have hmem := List.mem_of_mem_take hr
        have hfil := (List.mem_filter.mp hmem).2
        cases hname : r.name with
        | none =>
            rw [hname] at hfil
            exact absurd hfil (by simp)
        | some n =>
            rw [hname] at hfil
            exact ⟨n, rfl, hfil⟩

/-- Witness for the amended C9 theorem: the term `"a"` over a two-row
table returns only the row whose name contains an `a`. -/
theorem searchCandidates_behavior_witness :
    (searchCandidates "a" [cvRowX, cvRowAlice]).queriesIssued = 1
    ∧ ∃ l, (searchCandidates "a" [cvRowX, cvRowAlice]).result = Except.ok l
        ∧ l.length ≤ 10
        ∧ ∀ r ∈ l, ∃ n, r.name = some n
            ∧ sqlIlike ("%" ++ "a" ++ "%") n = true :=
  (searchCandidates_behavior "a" [cvRowX, cvRowAlice]).2 (by decide)

/-- C10.  Under the backing store's unique constraint on `user_id`,
primary-key uniqueness of ids, and the supplied `profile.id` (when any)
denoting a row of the authenticated user, `saveProfile` preserves
at-most-one-profile-per-user; the insert branch runs only when no
profile id was supplied and no row for the user exists (growing the
table by one row), and every other outcome — updates in place and error
returns — leaves the number of rows unchanged. -/
theorem saveProfile_at_most_one_profile_per_user (v : ProfileFormData)
    (profileId : Option String) (user : Option String) (t : Transport)
    (ts newId : String) (db : List EmployerProfileRow)
    (h1 : uniqueUsers db) (h2 : uniqueIds db)
    (h3 : ∀ uid pid r, user = some uid → profileId = some pid → r ∈ db →
        r.id = pid → r.user_id = uid) :
    uniqueUsers (saveProfile v profileId user t ts newId db).db
    ∧ ((saveProfile v profileId user t ts newId db).inserted = true →
        profileId = none
        ∧ ∀ uid r, user = some uid → r ∈ db → r.user_id ≠ uid)
    ∧ ((saveProfile v profileId user t ts newId db).inserted = false →
        (saveProfile v profileId user t ts newId db).db.length = db.length)
    ∧ ((saveProfile v profileId user t ts newId db).inserted = true →
        (saveProfile v profileId user t ts newId db).db.length =
          db.length + 1) := by
  cases user with
  | none =>
      exact ⟨h1, fun hins => by simp [saveProfile] at hins, fun _ => rfl,
        fun hins => by simp [saveProfile] at hins⟩
  | some uid =>
      cases t with
      | err =>
          exact ⟨h1, fun hins => by simp [saveProfile] at hins, fun _ => rfl,
            fun hins => by simp [saveProfile] at hins⟩
      | exn =>
          exact ⟨h1, fun hins => by simp [saveProfile] at hins, fun _ => rfl,
            fun hins => by simp [saveProfile] at hins⟩
      | ok =>
          cases profileId with
          | some pid =>
              have hown : ∀ r ∈ db, r.id = pid → r.user_id = uid :=
                fun r hr hid => h3 uid pid r rfl rfl hr hid
              have e0 : saveProfile v (some pid) (some uid) Transport.ok
                  ts newId db =
                  finishSave uid (updateProfileById pid uid v ts db) false :=
                rfl
              have edb : (saveProfile v (some pid) (some uid) Transport.ok
                  ts newId db).db = updateProfileById pid uid v ts db := by
                rw [e0]
                exact finishSave_db _ _ _
              have eins : (saveProfile v (some pid) (some uid) Transport.ok
                  ts newId db).inserted = false := by
                rw [e0]
                exact finishSave_inserted _ _ _
              refine ⟨?_, ?_, ?_, ?_⟩
              · rw [edb]
                exact uniqueUsers_updateProfileById pid uid v ts db hown h1
              · intro hins
                rw [eins] at hins
                exact absurd hins (by simp)
              · intro _
                rw [edb]
                exact List.length_map _ _
              · intro hins
                rw [eins] at hins
                exact absurd hins (by simp)
          | none =>
              have e0 : saveProfile v none (some uid) Transport.ok
                  ts newId db = saveProfileNoId uid v ts newId db := rfl
              cases hms : maybeSingleData uid db with
              | some existing =>
                  have hex := maybeSingleData_mem uid db existing hms
                  have hown : ∀ r ∈ db, r.id = existing.id →
                      r.user_id = uid := by
                    intro r hr hid
                    have hre := uniqueIds_eq_of_id db h2 r hr existing
                      hex.1 hid
                    rw [hre]
                    exact hex.2
                  have e1 : saveProfileNoId uid v ts newId db =
                      finishSave uid
                        (updateProfileById existing.id uid v ts db) false := by
                    unfold saveProfileNoId
                    rw [hms]
                  have edb : (saveProfile v none (some uid) Transport.ok
                      ts newId db).db =
                      updateProfileById existing.id uid v ts db := by
                    rw [e0, e1]
                    exact finishSave_db _ _ _
                  have eins : (saveProfile v none (some uid) Transport.ok
                      ts newId db).inserted = false := by
                    rw [e0, e1]
                    exact finishSave_inserted _ _ _
                  refine ⟨?_, ?_, ?_, ?_⟩
                  · rw [edb]
                    exact uniqueUsers_updateProfileById existing.id uid v ts
                      db hown h1
                  · intro hins
                    rw [eins] at hins
                    exact absurd hins (by simp)
                  · intro _
                    rw [edb]
                    exact List.length_map _ _
                  · intro hins
                    rw [eins] at hins
                    exact absurd hins (by simp)
              | none =>
                  have hnil := maybeSingleData_none_filter uid db h1 hms
                  have hnone : ∀ r ∈ db, r.user_id ≠ uid := by
                    intro r hr
                    have hr2 := List.filter_eq_nil_iff.mp hnil r hr
                    simpa using hr2
                  have hany : db.any (fun r => r.user_id == uid) = false := by
                    rw [List.any_eq_false]
                    intro r hr
                    simpa using hnone r hr
                  have e1 : saveProfileNoId uid v ts newId db =
                      finishSave uid
                        (db ++ [newProfileRow newId uid v ts]) true := by
                    unfold saveProfileNoId
                    rw [hms, hany]
                    rfl
                  have edb : (saveProfile v none (some uid) Transport.ok
                      ts newId db).db =
                      db ++ [newProfileRow newId uid v ts] := by
                    rw [e0, e1]
                    exact finishSave_db _ _ _
                  have eins : (saveProfile v none (some uid) Transport.ok
                      ts newId db).inserted = true := by
                    rw [e0, e1]
                    exact finishSave_inserted _ _ _
                  refine ⟨?_, ?_, ?_, ?_⟩
                  · rw [edb]
                    unfold uniqueUsers
                    rw [List.pairwise_append]
                    refine ⟨h1, by simp, ?_⟩
                    intro a ha b hb
                    rw [List.mem_singleton] at hb
                    subst hb
                    exact hnone a ha
                  · intro _
                    refine ⟨rfl, ?_⟩
                    intro uid' r hu hr
                    injection hu with hu1
                    subst hu1
                    exact hnone r hr
                  · intro hins
                    rw [eins] at hins
                    exact absurd hins (by simp)
                  · intro _
                    rw [edb, List.length_append]
                    rfl

/-- Witness for the C10 theorem: updating the single existing profile of
user `u1` by its supplied id. -/
theorem saveProfile_at_most_one_profile_per_user_witness :
    uniqueUsers (saveProfile profileValues (some "p1") (some "u1")
        Transport.ok "t1" "p9" [epRow]).db
    ∧ ((saveProfile profileValues (some "p1") (some "u1") Transport.ok
          "t1" "p9" [epRow]).inserted = true →
        (some "p1" : Option String) = none
        ∧ ∀ uid r, (some "u1" : Option String) = some uid →
            r ∈ [epRow] → r.user_id ≠ uid)
    ∧ ((saveProfile profileValues (some "p1") (some "u1") Transport.ok
          "t1" "p9" [epRow]).inserted = false →
        (saveProfile profileValues (some "p1") (some "u1") Transport.ok
          "t1" "p9" [epRow]).db.length =
          ([epRow] : List EmployerProfileRow).length)
    ∧ ((saveProfile profileValues (some "p1") (some "u1") Transport.ok
          "t1" "p9" [epRow]).inserted = true →
        (saveProfile profileValues (some "p1") (some "u1") Transport.ok
          "t1" "p9" [epRow]).db.length =
          ([epRow] : List EmployerProfileRow).length + 1) :=
  saveProfile_at_most_one_profile_per_user profileValues (some "p1")
    (some "u1") Transport.ok "t1" "p9" [epRow]
    (by simp [uniqueUsers])
    (by simp [uniqueIds])
    (by
      intro uid pid r hu hp hr hid
      injection hu with hu1
      subst hu1
      have hre : r = epRow := by simpa using hr
      subst hre
      rfl)
